import Mathlib

/-!
A verification development for the syspeek live system-introspection server.

The Go source is shallowly embedded: pure helpers become Lean functions,
the stateful session store becomes explicit state passing over an
association-list map (Go `map[string]*Session` with unique keys), machine
integers become `Nat` with an explicit `% 2^64` where uint64 overflow
matters, and time is an abstract `Nat` clock passed to every function that
calls `time.Now()` in Go.  External library calls (crypto/md5, crypto/rand,
net.IP.String, syscall.Kill) are modelled as function parameters or input
data; everything downstream of them is translated from the source.
-/

namespace Syspeek

/-- Go map lookup `m[k]` over an association list with unique keys. -/
def mapGet {α : Type} : List (String × α) → String → Option α
  | [], _ => none
  | (k, v) :: rest, key => if k = key then some v else mapGet rest key

/-- Go map assignment `m[k] = v`: overwrite the existing entry or append. -/
def mapInsert {α : Type} : List (String × α) → String → α → List (String × α)
  | [], k, v => [(k, v)]
  | (k', v') :: rest, k, v =>
    if k' = k then (k, v) :: rest else (k', v') :: mapInsert rest k v

/-- Go `delete(m, k)`: remove every entry stored under `k`. -/
def mapDelete {α : Type} : List (String × α) → String → List (String × α)
  | [], _ => []
  | (k', v') :: rest, k =>
    if k' = k then mapDelete rest k else (k', v') :: mapDelete rest k

/-! ## Auth/Session engine (src/auth/auth.go) -/

/-- `HashPassword` from auth.go: md5-hex of `"syspeek_" + password`.
The md5 hex digest itself is Go's crypto/md5 (external); it is passed in
as `md5hex`, while the salting with the fixed prefix is the repo's code. -/
def HashPassword (md5hex : String → String) (password : String) : String :=
  md5hex ("syspeek_" ++ password)

/-- `Session` from auth.go.  Times are abstract clock readings in seconds. -/
structure Session where
  token : String
  username : String
  readWrite : Bool
  createdAt : Nat
  expiresAt : Nat
  deriving Repr, DecidableEq

/-- `AuthManager` from auth.go.  The `sessions` map is an association list
with unique keys standing for Go's `map[string]*Session`. -/
structure AuthManager where
  username : String
  password : String
  readOnlyUsername : String
  readOnlyPassword : String
  sessions : List (String × Session)
  hasReadWrite : Bool
  hasReadOnly : Bool
  isPublic : Bool
  isAdmin : Bool
  deriving Repr, DecidableEq

/-- `NewAuthManager` from auth.go. -/
def NewAuthManager (username password readOnlyUsername readOnlyPassword : String)
    (isPublic isAdmin : Bool) : AuthManager :=
  { username := username
    password := password
    readOnlyUsername := readOnlyUsername
    readOnlyPassword := readOnlyPassword
    sessions := []
    hasReadWrite := username ≠ "" ∧ password ≠ ""
    hasReadOnly := readOnlyUsername ≠ "" ∧ readOnlyPassword ≠ ""
    isPublic := isPublic
    isAdmin := isAdmin }

/-- `IsEnabled` from auth.go. -/
def IsEnabled (am : AuthManager) : Bool :=
  am.hasReadWrite || am.hasReadOnly

/-- `RequiresLoginForReadOnly` from auth.go. -/
def RequiresLoginForReadOnly (am : AuthManager) : Bool :=
  if am.isPublic then false else IsEnabled am

/-- One Go time "hour" in the abstract clock's seconds. -/
def hours (n : Nat) : Nat := n * 3600

/-- `generateToken` from auth.go hex-encodes 32 random bytes; the random
bytes (crypto/rand, external) are the input, the hex encoding is the code. -/
def generateToken (bytes : List Nat) : String :=
  String.join (bytes.map (fun b =>
    let digit := fun (d : Nat) => String.singleton (Nat.digitChar d)
    digit (b / 16 % 16) ++ digit (b % 16)))

/-- `Login` from auth.go.  `md5hex` stands for the external md5 digest,
`now` for `time.Now()` and `newToken` for the `generateToken()` result.
Returns Go's `(token, readWrite, success)` triple plus the updated manager. -/
def Login (am : AuthManager) (md5hex : String → String)
    (username password : String) (now : Nat) (newToken : String) :
    (String × Bool × Bool) × AuthManager :=
  if am.hasReadWrite ∧ username = am.username ∧
      HashPassword md5hex password = am.password then
    ((newToken, true, true),
      { am with
          sessions := mapInsert am.sessions newToken
            (⟨newToken, username, true, now, now + hours 24⟩ : Session) })
  else if am.hasReadOnly ∧ username = am.readOnlyUsername ∧
      HashPassword md5hex password = am.readOnlyPassword then
    ((newToken, false, true),
      { am with
          sessions := mapInsert am.sessions newToken
            (⟨newToken, username, false, now, now + hours 24⟩ : Session) })
  else
    (("", false, false), am)

/-- `Logout` from auth.go. -/
def Logout (am : AuthManager) (token : String) : AuthManager :=
  { am with sessions := mapDelete am.sessions token }

/-- `ValidateSession` from auth.go.  `time.Now().After(expiresAt)` is
`expiresAt < now`; an expired session is removed via `Logout`. -/
def ValidateSession (am : AuthManager) (token : String) (now : Nat) :
    Bool × AuthManager :=
  match mapGet am.sessions token with
  | none => (false, am)
  | some session =>
    if session.expiresAt < now then (false, Logout am token) else (true, am)

/-- `GetSession` from auth.go (no expiry check). -/
def GetSession (am : AuthManager) (token : String) : Option Session :=
  mapGet am.sessions token

/-- `IsReadWrite` from auth.go. -/
def IsReadWrite (am : AuthManager) (token : String) : Bool :=
  match GetSession am token with
  | none => false
  | some session => session.readWrite

/-- `CleanupExpiredSessions` from auth.go: the hourly sweep body. -/
def CleanupExpiredSessions (am : AuthManager) (now : Nat) : AuthManager :=
  { am with sessions := am.sessions.filter (fun kv => ¬ kv.2.expiresAt < now) }

/-! ## Middleware (src/auth/auth.go) and the request model -/

/-- The slice of an HTTP request the auth/kill code inspects: the method,
the `session` cookie (if present), the `Authorization` header (empty string
when absent, as Go's `Header.Get` returns), the URL path, and the decoded
JSON body (`none` when `json.Decode` fails, `some signal` otherwise). -/
structure Request where
  method : String
  cookieSession : Option String
  authHeader : String
  path : String
  bodySignal : Option Int
  deriving Repr, DecidableEq

/-- Token extraction shared by `Middleware` and `MiddlewareReadWrite`:
cookie value first, falling back to the Authorization header when the
cookie is absent or empty. -/
def tokenOf (req : Request) : String :=
  let token := match req.cookieSession with
    | some v => v
    | none => ""
  if token = "" then req.authHeader else token

/-- Outcome of a middleware-wrapped call: either the wrapped handler runs
(with the `X-Authenticated` / `X-ReadWrite` header values the middleware
set), or the middleware writes 401 Unauthorized / 403 Forbidden itself. -/
inductive MwResult where
  | proceed (xAuthenticated xReadWrite : String)
  | unauthorized
  | forbidden
  deriving Repr, DecidableEq

/-- True when the middleware let the request through to the handler. -/
def MwResult.isAllowed : MwResult → Bool
  | .proceed _ _ => true
  | _ => false

/-- `Middleware` from auth.go (viewing endpoints are wired with
`requireAuth = false`).  `ValidateSession` may evict an expired session, so
the subsequent `IsReadWrite` runs on the updated manager, exactly as the
Go code mutates `am` in place. -/
def Middleware (am : AuthManager) (requireAuth : Bool) (req : Request)
    (now : Nat) : MwResult × AuthManager :=
  if am.isAdmin then (.proceed "true" "true", am)
  else
    let token := tokenOf req
    let step := ValidateSession am token now
    let isAuthenticated := step.1
    let am1 := step.2
    let isRW := IsReadWrite am1 token
    let xAuth := if isAuthenticated then "true" else "false"
    let xRW := if isAuthenticated then (if isRW then "true" else "false") else "false"
    if requireAuth then
      if ¬ isAuthenticated then (.unauthorized, am1)
      else (.proceed xAuth xRW, am1)
    else
      if RequiresLoginForReadOnly am ∧ ¬ isAuthenticated then (.unauthorized, am1)
      else (.proceed xAuth xRW, am1)

/-- `MiddlewareReadWrite` from auth.go: the gate on mutating endpoints. -/
def MiddlewareReadWrite (am : AuthManager) (req : Request) (now : Nat) :
    MwResult × AuthManager :=
  if am.isAdmin then (.proceed "true" "true", am)
  else
    let token := tokenOf req
    let step := ValidateSession am token now
    let am1 := step.2
    if ¬ step.1 then (.unauthorized, am1)
    else if ¬ IsReadWrite am1 token then (.forbidden, am1)
    else (.proceed "true" "true", am1)

/-- The spec's reading of "the token validates to a read-write session":
the session store holds the token, it is not past expiry, and its role is
read-write.  Stated from the spec's words, to be compared with what the
middleware from the source actually decides. -/
def validatesToReadWrite (am : AuthManager) (token : String) (now : Nat) : Bool :=
  match mapGet am.sessions token with
  | none => false
  | some session => ¬ session.expiresAt < now ∧ session.readWrite

/-- The spec's reading of "the token validates to some valid session of
either role": stored and not past expiry. -/
def validatesToAnyRole (am : AuthManager) (token : String) (now : Nat) : Bool :=
  match mapGet am.sessions token with
  | none => false
  | some session => ¬ session.expiresAt < now

/-- The startup validation in main.go, `!authMgr.IsEnabled() && !*public
&& !*admin`: when it holds the server `log.Fatalf`s before serving any
request.  The constructor stores the `public`/`admin` flags verbatim and
no code ever mutates them, so every request a running server handles sees
a manager on which this is `false`. -/
def startupAborts (am : AuthManager) : Bool :=
  !(IsEnabled am) && !am.isPublic && !am.isAdmin

/-! ## Auth status handler (api handlers, src/unnamed/part_000) -/

/-- `StatusResponse` from the api package. -/
structure StatusResponse where
  authenticated : Bool
  authEnabled : Bool
  username : String
  deriving Repr, DecidableEq

/-- `HandleAuthStatus` from the api package: reports the caller as
authenticated whenever `GetSession` finds the cookie's token — no expiry
check is involved. -/
def HandleAuthStatus (am : AuthManager) (cookieSession : Option String) :
    StatusResponse :=
  let base : StatusResponse :=
    { authenticated := false, authEnabled := IsEnabled am, username := "" }
  match cookieSession with
  | none => base
  | some token =>
    match GetSession am token with
    | none => base
    | some session =>
      { base with authenticated := true, username := session.username }

/-! ## Process-kill endpoint (api handlers, src/unnamed/part_000, routes.go) -/

/-- Decimal digits to a number, as `strconv.Atoi` accumulates them. -/
def parseDigits (cs : List Char) : Nat :=
  cs.foldl (fun n c => n * 10 + (c.toNat - 48)) 0

/-- Go `strconv.Atoi`: optional sign then one or more decimal digits;
anything else is an error (`none`). -/
def atoi (s : String) : Option Int :=
  match s.toList with
  | '-' :: ds =>
    if ds ≠ [] ∧ ds.all Char.isDigit then some (-(parseDigits ds : Int)) else none
  | '+' :: ds =>
    if ds ≠ [] ∧ ds.all Char.isDigit then some ((parseDigits ds : Int)) else none
  | ds =>
    if ds ≠ [] ∧ ds.all Char.isDigit then some ((parseDigits ds : Int)) else none

/-- Go `strings.TrimSuffix`: drop one copy of the suffix when present. -/
def goTrimSuffix (s suf : String) : String :=
  if suf.toList.isSuffixOf s.toList then
    String.mk (s.toList.take (s.toList.length - suf.toList.length))
  else s

/-- Go `strings.TrimPrefix`: drop one copy of the leading pattern. -/
def goTrimPre (s pre : String) : String :=
  if pre.toList.isPrefixOf s.toList then String.mk (s.toList.drop pre.toList.length)
  else s

/-- Split a character list at every occurrence of `sep`, keeping empty
pieces — the semantics of Go `strings.Split` with a one-character
separator, as all split calls in the embedded code use. -/
def splitOnChar (sep : Char) : List Char → List (List Char)
  | [] => [[]]
  | c :: cs =>
    let rest := splitOnChar sep cs
    if c = sep then [] :: rest
    else
      match rest with
      | r :: rs => (c :: r) :: rs
      | [] => [[c]]

/-- The scan loop of `extractPID`: find a `"process"` path component whose
successor parses as a number, returning that successor. -/
def extractPIDLoop : List String → String
  | part :: next :: rest =>
    if part = "process" ∧ (atoi next).isSome then next
    else extractPIDLoop (next :: rest)
  | _ => ""

/-- `extractPID` from the api package: trim a trailing slash, split on
`/`, and scan for the component after `"process"`. -/
def extractPID (path : String) : String :=
  extractPIDLoop ((splitOnChar '/' (goTrimSuffix path "/").toList).map String.mk)

/-- Outcomes of the kill endpoint, through middleware and handler. -/
inductive KillOutcome where
  | methodNotAllowed
  | unauthorizedMw
  | forbiddenRole
  | unauthorizedHandler
  | badRequest
  | forbiddenSelf
  | killFailed (msg : String)
  | ok
  deriving Repr, DecidableEq

/-- `syscall.SIGTERM`'s numeric value, the handler's default signal. -/
def SIGTERM : Int := 15

/-- The effective signal sent: decode failure or an omitted/zero signal
falls back to SIGTERM, as in `HandleProcessKill`. -/
def effectiveSignal (bodySignal : Option Int) : Int :=
  match bodySignal with
  | none => SIGTERM
  | some s => if s = 0 then SIGTERM else s

/-- `HandleProcessKill` from the api package.  `killErr` stands for the
outcome of the external `syscall.Kill`; the returned list records every
`(pid, signal)` pair actually passed to `collectors.KillProcess`. -/
def HandleProcessKill (servicePID : Int) (killErr : Option String)
    (req : Request) (xAuthenticated : String) :
    KillOutcome × List (Int × Int) :=
  if req.method ≠ "POST" then (.methodNotAllowed, [])
  else if xAuthenticated ≠ "true" then (.unauthorizedHandler, [])
  else
    match atoi (extractPID req.path) with
    | none => (.badRequest, [])
    | some pid =>
      if pid = servicePID then (.forbiddenSelf, [])
      else
        let signal := effectiveSignal req.bodySignal
        match killErr with
        | some msg => (.killFailed msg, [(pid, signal)])
        | none => (.ok, [(pid, signal)])

/-- The `/api/process/{pid}/kill` pipeline as wired in routes.go:
`MiddlewareReadWrite` around `HandleProcessKill`. -/
def killEndpoint (am : AuthManager) (req : Request) (now : Nat)
    (servicePID : Int) (killErr : Option String) :
    KillOutcome × List (Int × Int) × AuthManager :=
  match MiddlewareReadWrite am req now with
  | (.proceed xAuth _, am1) =>
    let handled := HandleProcessKill servicePID killErr req xAuth
    (handled.1, handled.2, am1)
  | (.unauthorized, am1) => (.unauthorizedMw, [], am1)
  | (.forbidden, am1) => (.forbiddenRole, [], am1)

/-! ## SSE stream dispatcher (src/unnamed/part_001) -/

/-- One occurrence the `HandleSSE` select loop reacts to: the connection
context being cancelled, or one category's ticker firing.  `sampleOk`
records whether the collector returned without error; `writeOk` whether
the framed write succeeded (only consulted when the sample succeeded,
since a failed sample is never written). -/
inductive SSEEvent where
  | ctxDone
  | tick (category : String) (sampleOk : Bool) (writeOk : Bool)
  deriving Repr, DecidableEq

/-- Connection-level failure: context cancellation, or a write error on a
frame that was actually attempted. -/
def connFailure : SSEEvent → Bool
  | .ctxDone => true
  | .tick _ sampleOk writeOk => sampleOk && !writeOk

/-- State of one streaming session after processing a trace: the
categories successfully written, whether the handler returned, and whether
the deferred `Stop` of all eight tickers has run. -/
structure SSEState where
  sent : List String
  exited : Bool
  tickersStopped : Bool
  deriving Repr, DecidableEq

/-- The `HandleSSE` main loop over a trace of events.  A failed sample is
skipped (`err != nil` guards the send), `ctx.Done()` and write errors
return from the handler, which fires the deferred ticker stops.  An
exhausted trace means the session is still live: not exited, tickers
still running. -/
def sseLoop : List SSEEvent → List String → SSEState
  | [], sent => { sent := sent, exited := false, tickersStopped := false }
  | .ctxDone :: _, sent => { sent := sent, exited := true, tickersStopped := true }
  | .tick category sampleOk writeOk :: rest, sent =>
    if sampleOk then
      if writeOk then sseLoop rest (sent ++ [category])
      else { sent := sent, exited := true, tickersStopped := true }
    else sseLoop rest sent

/-- `HandleSSE` after the tickers are created: `sendInitialData` first
(a write failure there returns, stopping the tickers), then the loop. -/
def HandleSSE (initialWriteOk : Bool) (events : List SSEEvent) : SSEState :=
  if initialWriteOk then sseLoop events []
  else { sent := [], exited := true, tickersStopped := true }

/-! ## Rate/delta computations (GetNetworkInfo, GetDiskInfo, getProcessBasic) -/

/-- Go `uint64` subtraction `a - b` for `a, b < 2^64`: wraps around. -/
def wsub64 (a b : Nat) : Nat := (2 ^ 64 + a - b) % 2 ^ 64

/-- The previous-sample entry of `previousNetStats` consulted by
`GetNetworkInfo`. -/
structure NetPrev where
  rxBytes : Nat
  txBytes : Nat
  deriving Repr, DecidableEq

/-- The speed computation of `GetNetworkInfo`: with no previous entry the
speeds stay at their zero value; otherwise plain uint64 subtraction of the
previous cumulative counters. -/
def netSpeeds (prev : Option NetPrev) (rxBytes txBytes : Nat) : Nat × Nat :=
  match prev with
  | none => (0, 0)
  | some p => (wsub64 rxBytes p.rxBytes, wsub64 txBytes p.txBytes)

/-- The previous-sample entry of `previousDiskIO` consulted by
`GetDiskInfo`. -/
structure DiskPrev where
  readBytes : Nat
  writeBytes : Nat
  deriving Repr, DecidableEq

/-- The speed computation of `GetDiskInfo`: same shape as the network
one — uint64 subtraction, no clamping. -/
def diskSpeeds (prev : Option DiskPrev) (readBytes writeBytes : Nat) : Nat × Nat :=
  match prev with
  | none => (0, 0)
  | some p => (wsub64 readBytes p.readBytes, wsub64 writeBytes p.writeBytes)

/-- The `ticksDelta` computation of `getProcessBasic`: `CPUPercent` stays 0
with no previous entry for the pid, else uint64 subtraction of the
previous tick counter (the result is then divided by the elapsed time, a
positive scaling that cannot turn a nonzero delta into zero). -/
def cpuTicksDelta (prevTicks : Option Nat) (totalTicks : Nat) : Nat :=
  match prevTicks with
  | none => 0
  | some p => wsub64 totalTicks p

/-! ## Address / state decoding (src/collectors/process_linux.go) -/

/-- Value of one hex digit, upper or lower case, as `strconv.ParseUint`
with base 16 accepts. -/
def hexDigitVal (c : Char) : Option Nat :=
  if '0' ≤ c ∧ c ≤ '9' then some (c.toNat - 48)
  else if 'a' ≤ c ∧ c ≤ 'f' then some (c.toNat - 87)
  else if 'A' ≤ c ∧ c ≤ 'F' then some (c.toNat - 55)
  else none

/-- Base-16 digit accumulation of `strconv.ParseUint`: `none` on an empty
string or any non-hex character. -/
def parseHexNat : List Char → Option Nat
  | [] => none
  | cs => cs.foldl (fun acc c =>
      match acc, hexDigitVal c with
      | some n, some d => some (n * 16 + d)
      | _, _ => none) (some 0)

/-- Go `strconv.ParseUint(s, 16, 8)` with its error ignored, as the
parsers do: a syntax error yields 0, a range overflow yields MaxUint8. -/
def parseUint8 (cs : List Char) : Nat :=
  match parseHexNat cs with
  | none => 0
  | some v => if v < 256 then v else 255

/-- The hex pair at positions `2*i, 2*i+1`, as the decoding loops slice. -/
def hexPairAt (cs : List Char) (i : Nat) : Nat :=
  parseUint8 ((cs.drop (2 * i)).take 2)

/-- `fmt.Sprintf` of four decimal bytes joined by dots. -/
def ipv4String (b0 b1 b2 b3 : Nat) : String :=
  toString b0 ++ "." ++ toString b1 ++ "." ++ toString b2 ++ "." ++ toString b3

/-- One IPv6 group of `parseHexIP`: the four bytes of an 8-hex-char group
written to indices `i*4+(3-j)`, i.e. in reversed pair order. -/
def ipv6GroupBytes (g : List Char) : List Nat :=
  [hexPairAt g 3, hexPairAt g 2, hexPairAt g 1, hexPairAt g 0]

/-- The 16 bytes `parseHexIP` assembles for a 32-hex-char input. -/
def ipv6Bytes (cs : List Char) : List Nat :=
  ((List.range 4).map (fun i => ipv6GroupBytes ((cs.drop (8 * i)).take 8))).flatten

/-- Spec-side: the big-endian byte rendering of a 32-bit value. -/
def beBytes32 (v : Nat) : List Nat :=
  [v / 16777216 % 256, v / 65536 % 256, v / 256 % 256, v % 256]

/-- Spec-side: read one 8-hex-char group as a little-endian 32-bit value —
the byte pairs in string order are the value's low-to-high bytes. -/
def leGroupValue (g : List Char) : Nat :=
  hexPairAt g 0 + 256 * hexPairAt g 1 + 65536 * hexPairAt g 2 +
    16777216 * hexPairAt g 3

/-- Spec-side reading of the spec sentence "a compact hex-encoded IPv6
address is 16 bytes stored as four 32-bit little-endian groups": each
group's little-endian value, rendered back as big-endian address bytes. -/
def ipv6GroupsLE (cs : List Char) : List Nat :=
  ((List.range 4).map
    (fun i => beBytes32 (leGroupValue ((cs.drop (8 * i)).take 8)))).flatten

/-- `parseHexIP` from process_linux.go.  `fmt6` stands for the external
`net.IP.String()` rendering of the assembled 16 bytes; everything else is
the source's own decoding.  An input of any other length passes through. -/
def parseHexIP (fmt6 : List Nat → String) (hex : String) : String :=
  let cs := hex.toList
  if hex.length = 8 then
    ipv4String (hexPairAt cs 3) (hexPairAt cs 2) (hexPairAt cs 1) (hexPairAt cs 0)
  else if hex.length = 32 then fmt6 (ipv6Bytes cs)
  else hex

/-- The fixed TCP-state lookup table of `parseState`. -/
def tcpStateTable : List (String × String) :=
  [("01", "ESTABLISHED"), ("02", "SYN_SENT"), ("03", "SYN_RECV"),
   ("04", "FIN_WAIT1"), ("05", "FIN_WAIT2"), ("06", "TIME_WAIT"),
   ("07", "CLOSE"), ("08", "CLOSE_WAIT"), ("09", "LAST_ACK"),
   ("0A", "LISTEN"), ("0B", "CLOSING")]

/-- `parseState` from process_linux.go: look the code up, pass unknown
codes through verbatim. -/
def parseState (code : String) : String :=
  match mapGet tcpStateTable code with
  | some name => name
  | none => code

/-- Clamp a parsed value to the int32 range, as Go's `ParseInt` range
error (which the callers ignore) leaves MaxInt32 / MinInt32 behind. -/
def clampInt32 (x : Int) : Int :=
  if x > 2147483647 then 2147483647
  else if x < -2147483648 then -2147483648
  else x

/-- Go `strconv.ParseInt(s, 16, 32)` with its error ignored: syntax error
yields 0, overflow clamps to the int32 bounds. -/
def parseHexPort (s : String) : Int :=
  match s.toList with
  | '-' :: ds =>
    match parseHexNat ds with
    | none => 0
    | some v => clampInt32 (-(v : Int))
  | '+' :: ds =>
    match parseHexNat ds with
    | none => 0
    | some v => clampInt32 ((v : Int))
  | ds =>
    match parseHexNat ds with
    | none => 0
    | some v => clampInt32 ((v : Int))

/-- `parseAddr` from process_linux.go: split `ip:port`, decode each half;
a malformed field yields `("", 0)`. -/
def parseAddr (fmt6 : List Nat → String) (addr : String) : String × Int :=
  match (splitOnChar ':' addr.toList).map String.mk with
  | [ip, port] => (parseHexIP fmt6 ip, parseHexPort port)
  | _ => ("", 0)

/-! ## Socket/process correlation (src/collectors/sockets.go) -/

/-- One `Socket` row of sockets.go; `pid = 0` and an empty name are the Go
zero values left in place when the inode has no owner in the index. -/
structure Socket where
  protocol : String
  localAddr : String
  localPort : Int
  remoteAddr : String
  remotePort : Int
  state : String
  pid : Int
  processName : String
  inode : String
  deriving Repr, DecidableEq

/-- A value of the `inode -> (pid, name)` index built by `buildInodeMap`. -/
structure InodeOwner where
  pid : Int
  name : String
  deriving Repr, DecidableEq

/-- Split at every character satisfying `p`, keeping empty pieces. -/
def splitPred (p : Char → Bool) : List Char → List (List Char)
  | [] => [[]]
  | c :: cs =>
    let rest := splitPred p cs
    if p c then [] :: rest
    else
      match rest with
      | r :: rs => (c :: r) :: rs
      | [] => [[c]]

/-- The whitespace characters `strings.Fields` splits on that occur in
/proc tables. -/
def isGoSpace (c : Char) : Bool :=
  c = ' ' ∨ c = '\t' ∨ c = '\n' ∨ c = '\r'

/-- Go `strings.Fields`: split on whitespace, dropping empty pieces. -/
def goFields (line : String) : List String :=
  ((splitPred isGoSpace line.toList).filter (fun s => s ≠ [])).map String.mk

/-- The per-row body of `parseNetSockets`: decode the addresses and state,
take the inode from field 9, and copy the owner from the index when, and
only when, the inode is present there. -/
def rowToSocket (fmt6 : List Nat → String) (protocol : String)
    (inodeMap : List (String × InodeOwner)) (fields : List String) : Socket :=
  let loc := parseAddr fmt6 (fields.getD 1 "")
  let rem := parseAddr fmt6 (fields.getD 2 "")
  let base : Socket :=
    { protocol := protocol
      localAddr := loc.1, localPort := loc.2
      remoteAddr := rem.1, remotePort := rem.2
      state := parseState (fields.getD 3 "")
      pid := 0, processName := ""
      inode := fields.getD 9 "" }
  match mapGet inodeMap base.inode with
  | some owner => { base with pid := owner.pid, processName := owner.name }
  | none => base

/-- `parseNetSockets` from sockets.go over the file's lines: skip the
header line, skip rows with fewer than 10 fields, decode the rest. -/
def parseNetSockets (fmt6 : List Nat → String) (lines : List String)
    (protocol : String) (inodeMap : List (String × InodeOwner)) : List Socket :=
  ((((lines.drop 1).map goFields).filter (fun fs => 10 ≤ fs.length)).map
    (rowToSocket fmt6 protocol inodeMap))

/-- One enumerable process for `buildInodeMap`: its pid, its `comm` name,
and the readlink targets of its open descriptors.  Processes whose /proc
entries could not be read are simply not in this list, as the Go loop
`continue`s over them. -/
structure ProcEntry where
  pid : Int
  comm : String
  fdTargets : List String
  deriving Repr, DecidableEq

/-- The inode of a descriptor target of the form `socket:[N]`, per the
`HasPrefix` / `TrimSuffix` / `TrimPrefix` steps of `buildInodeMap`. -/
def socketInodeOf (target : String) : Option String :=
  if "socket:[".toList.isPrefixOf target.toList then
    some (goTrimPre (goTrimSuffix target "]") "socket:[")
  else none

/-- `buildInodeMap` from sockets.go over a synthetic process set: record
`inode -> (pid, comm)` for every socket descriptor, later writes winning
as in a Go map. -/
def buildInodeMap (procs : List ProcEntry) : List (String × InodeOwner) :=
  procs.foldl (fun m p =>
    p.fdTargets.foldl (fun m t =>
      match socketInodeOf t with
      | some inode => mapInsert m inode { pid := p.pid, name := p.comm }
      | none => m) m) []

/-- A concrete manager holding one already-expired session, used as a
test input for the session-validation theorems. -/
def expiredStore : AuthManager :=
  { username := "alice", password := "h", readOnlyUsername := "",
    readOnlyPassword := "",
    sessions := [("tok0", ⟨"tok0", "alice", true, 0, 100⟩)],
    hasReadWrite := true, hasReadOnly := false,
    isPublic := false, isAdmin := false }

/-! ## Map lemmas -/

theorem mapGet_mapInsert_self {α : Type} (m : List (String × α)) (k : String)
    (v : α) : mapGet (mapInsert m k v) k = some v := by
  induction m with
  | nil => simp [mapInsert, mapGet]
  | cons hd tl ih =>
    by_cases h : hd.1 = k
    · simp [mapInsert, mapGet, h]
    · simpa [mapInsert, mapGet, h] using ih

theorem mapGet_mapDelete_self {α : Type} (m : List (String × α)) (k : String) :
    mapGet (mapDelete m k) k = none := by
  induction m with
  | nil => simp [mapDelete, mapGet]
  | cons hd tl ih =>
    by_cases h : hd.1 = k
    · simpa [mapDelete, h] using ih
    · simpa [mapDelete, mapGet, h] using ih

/-! ## Claim theorems -/

/-- C2 — A request to a mutating endpoint is allowed if and only if admin
mode is on, or the supplied token validates to a read-write session
(stored, unexpired, role read-write); in particular a sessionless request
with `admin=false, public=true` is rejected, and with `admin=true` it is
allowed regardless of session state. -/
theorem mutating_access_iff (am : AuthManager) (req : Request) (now : Nat) :
    (MiddlewareReadWrite am req now).1.isAllowed = true ↔
      (am.isAdmin = true ∨ validatesToReadWrite am (tokenOf req) now = true) := by
  unfold MiddlewareReadWrite validatesToReadWrite ValidateSession IsReadWrite
    GetSession Logout
  by_cases hA : am.isAdmin = true
  · simp [hA, MwResult.isAllowed]
  · cases hm : mapGet am.sessions (tokenOf req) with
    | none => simp [hA, hm, MwResult.isAllowed]
    | some s =>
      by_cases hexp : s.expiresAt < now
      · simp [hA, hm, hexp, MwResult.isAllowed]
      · by_cases hrw : s.readWrite = true <;>
          simp [hA, hm, hexp, hrw, MwResult.isAllowed]

/-- What the viewing middleware decides, over all manager states: allowed
iff admin, public, a valid session, or no credential tier configured at
all (the last case is cut off by the startup guard before any request). -/
theorem middleware_view_allowed_iff (am : AuthManager) (req : Request)
    (now : Nat) :
    (Middleware am false req now).1.isAllowed = true ↔
      (am.isAdmin = true ∨ am.isPublic = true ∨
        validatesToAnyRole am (tokenOf req) now = true ∨
        IsEnabled am = false) := by
  unfold Middleware validatesToAnyRole ValidateSession RequiresLoginForReadOnly
    Logout
  by_cases hA : am.isAdmin = true
  · simp [hA, MwResult.isAllowed]
  · by_cases hP : am.isPublic = true
    · cases hm : mapGet am.sessions (tokenOf req) with
      | none => simp [hA, hP, hm, MwResult.isAllowed]
      | some s =>
        by_cases hexp : s.expiresAt < now <;>
          simp [hA, hP, hm, hexp, MwResult.isAllowed]
    · by_cases hE : IsEnabled am = true
      · cases hm : mapGet am.sessions (tokenOf req) with
        | none => simp [hA, hP, hm, hE, MwResult.isAllowed]
        | some s =>
          by_cases hexp : s.expiresAt < now <;>
            simp [hA, hP, hm, hE, hexp, MwResult.isAllowed]
      · cases hm : mapGet am.sessions (tokenOf req) with
        | none =>
          simp [hA, hP, hm, hE, MwResult.isAllowed]
        | some s =>
          by_cases hexp : s.expiresAt < now <;>
            simp [hA, hP, hm, hE, hexp, MwResult.isAllowed]

/-- C4 — In every reachable server state — the startup guard in main.go
aborts before serving when no credential tier, no public mode and no
admin mode is configured, and those flags are never mutated afterwards —
a viewing request is allowed if and only if admin mode is on, or public
mode is on, or the supplied token validates to some valid (unexpired)
session of either role; no other condition grants viewing access. -/
theorem viewing_access_iff_reachable (am : AuthManager) (req : Request)
    (now : Nat) (hreach : startupAborts am = false) :
    (Middleware am false req now).1.isAllowed = true ↔
      (am.isAdmin = true ∨ am.isPublic = true ∨
        validatesToAnyRole am (tokenOf req) now = true) := by
  rw [middleware_view_allowed_iff]
  constructor
  · rintro (h | h | h | h)
    · exact Or.inl h
    · exact Or.inr (Or.inl h)
    · exact Or.inr (Or.inr h)
    · have : am.isPublic = true ∨ am.isAdmin = true := by
        cases hp : am.isPublic <;> cases ha : am.isAdmin <;>
          simp_all [startupAborts]
      rcases this with hp | ha
      · exact Or.inr (Or.inl hp)
      · exact Or.inl ha
  · rintro (h | h | h)
    · exact Or.inl h
    · exact Or.inr (Or.inl h)
    · exact Or.inr (Or.inr (Or.inl h))

/-- The reachable-state viewing iff at a concrete public-mode server with
no session: the startup guard passes and the request is allowed through
the public disjunct. -/
theorem viewing_access_iff_reachable_witness :
    startupAborts (NewAuthManager "" "" "" "" true false) = false ∧
    (Middleware (NewAuthManager "" "" "" "" true false) false
        { method := "GET", cookieSession := none, authHeader := "",
          path := "/api/cpu", bodySignal := none } 0).1.isAllowed = true := by
  refine ⟨by decide, ?_⟩
  exact (viewing_access_iff_reachable (NewAuthManager "" "" "" "" true false)
    { method := "GET", cookieSession := none, authHeader := "",
      path := "/api/cpu", bodySignal := none } 0 (by decide)).mpr
    (Or.inr (Or.inl (by decide)))

/-- Folding string concatenation adds up the lengths. -/
theorem foldl_append_length (l : List String) :
    ∀ init : String,
      (l.foldl (· ++ ·) init).length =
        init.length + (l.map String.length).sum := by
  induction l with
  | nil => intro init; simp
  | cons hd tl ih =>
    intro init
    simp only [List.foldl_cons, List.map_cons, List.sum_cons, ih,
      String.length_append]
    omega

/-- Length of the hex token: two characters per random byte. -/
theorem generateToken_length (bytes : List Nat) :
    (generateToken bytes).length = 2 * bytes.length := by
  unfold generateToken
  rw [String.join, foldl_append_length]
  have hmap : ∀ bs : List Nat,
      (((bs.map (fun b =>
          String.singleton (Nat.digitChar (b / 16 % 16)) ++
            String.singleton (Nat.digitChar (b % 16)))).map String.length).sum) =
        2 * bs.length := by
    intro bs
    induction bs with
    | nil => simp
    | cons b tl ih =>
      simp only [List.map_cons, List.sum_cons, List.length_cons, ih]
      have h2 : (String.singleton (Nat.digitChar (b / 16 % 16)) ++
          String.singleton (Nat.digitChar (b % 16))).length = 2 := by
        simp [String.length_append, String.length_singleton]
      omega
  simpa using hmap bytes

/-- C5 — Login hashes the submitted plaintext with the fixed one-way
transform and compares against the stored transformed value, trying the
read-write tier before the read-only tier; a match stores a session under
the fresh token with the matched role and expiry exactly 24 hours after
creation and returns success; any non-match returns the one generic
failure triple and leaves the store untouched.  The minted token is the
hex encoding of 32 random bytes, hence of fixed length 64. -/
theorem login_spec (am : AuthManager) (md5hex : String → String)
    (u p : String) (now : Nat) (tok : String) :
    (((Login am md5hex u p now tok).1.2.2 = true) ↔
      ((am.hasReadWrite = true ∧ u = am.username ∧
          HashPassword md5hex p = am.password) ∨
        (am.hasReadOnly = true ∧ u = am.readOnlyUsername ∧
          HashPassword md5hex p = am.readOnlyPassword))) ∧
    ((am.hasReadWrite = true ∧ u = am.username ∧
        HashPassword md5hex p = am.password) →
      (Login am md5hex u p now tok).1 = (tok, true, true) ∧
      mapGet (Login am md5hex u p now tok).2.sessions tok =
        some { token := tok, username := u, readWrite := true
               createdAt := now, expiresAt := now + hours 24 }) ∧
    (¬ (am.hasReadWrite = true ∧ u = am.username ∧
          HashPassword md5hex p = am.password) →
      (am.hasReadOnly = true ∧ u = am.readOnlyUsername ∧
        HashPassword md5hex p = am.readOnlyPassword) →
      (Login am md5hex u p now tok).1 = (tok, false, true) ∧
      mapGet (Login am md5hex u p now tok).2.sessions tok =
        some { token := tok, username := u, readWrite := false
               createdAt := now, expiresAt := now + hours 24 }) ∧
    (¬ (am.hasReadWrite = true ∧ u = am.username ∧
          HashPassword md5hex p = am.password) →
      ¬ (am.hasReadOnly = true ∧ u = am.readOnlyUsername ∧
          HashPassword md5hex p = am.readOnlyPassword) →
      (Login am md5hex u p now tok) = (("", false, false), am)) ∧
    (∀ bytes : List Nat, (generateToken bytes).length = 2 * bytes.length) := by
  refine ⟨?_, fun hrw => ?_, fun hnrw hro => ?_, fun hnrw hnro => ?_,
    generateToken_length⟩
  · unfold Login
    split_ifs with h1 h2
    · simp [h1]
    · simp [h1, h2]
    · simp [h1, h2]
  · unfold Login
    split_ifs
    exact ⟨rfl, mapGet_mapInsert_self am.sessions tok _⟩
  · unfold Login
    split_ifs
    exact ⟨rfl, mapGet_mapInsert_self am.sessions tok _⟩
  · unfold Login
    split_ifs
    rfl

/-- The no-session login-spec instance: wrong password against configured
read-write credentials yields the generic failure. -/
theorem login_spec_witness :
    (Login (NewAuthManager "alice" "syspeek_secret" "" "" false false)
        (fun s => s) "alice" "wrong" 5 "tok0") =
      (("", false, false), NewAuthManager "alice" "syspeek_secret" "" "" false false) ∧
    (Login (NewAuthManager "alice" "syspeek_secret" "" "" false false)
        (fun s => s) "alice" "secret" 5 "tok0").1 = ("tok0", true, true) := by
  refine ⟨?_, ?_⟩
  · exact (login_spec (NewAuthManager "alice" "syspeek_secret" "" "" false false)
      (fun s => s) "alice" "wrong" 5 "tok0").2.2.2.1 (by decide) (by decide)
  · exact ((login_spec (NewAuthManager "alice" "syspeek_secret" "" "" false false)
      (fun s => s) "alice" "secret" 5 "tok0").2.1 (by decide)).1

/-- C6 — A token absent from the store validates to the same
unauthenticated outcome as supplying no token; a stored but expired token
also validates to that outcome and is removed from the store on the way
(lazy eviction). -/
theorem validate_session_spec (am : AuthManager) (tok : String) (now : Nat) :
    (mapGet am.sessions tok = none →
      ValidateSession am tok now = (false, am)) ∧
    (∀ s, mapGet am.sessions tok = some s → s.expiresAt < now →
      (ValidateSession am tok now).1 = false ∧
      mapGet (ValidateSession am tok now).2.sessions tok = none) ∧
    (mapGet am.sessions "" = none → (ValidateSession am "" now).1 = false) := by
  refine ⟨fun h => ?_, fun s hs hexp => ?_, fun h => ?_⟩
  · simp [ValidateSession, h]
  · simp [ValidateSession, hs, hexp, Logout, mapGet_mapDelete_self]
  · simp [ValidateSession, h]

/-- The validate-spec instance at a concrete store: an expired session is
rejected and evicted, an absent token is rejected. -/
theorem validate_session_spec_witness :
    (ValidateSession expiredStore "tok0" 200).1 = false ∧
    mapGet (ValidateSession expiredStore "tok0" 200).2.sessions "tok0" = none := by
  exact (validate_session_spec expiredStore "tok0" 200).2.1
    ⟨"tok0", "alice", true, 0, 100⟩ rfl (by decide)

/-- C10 — A state with an expired session still in the store is reachable
(login at time 0, observe at time 90000 > 24h with no intervening
validation or sweep); there `GetSession` still returns the record and the
auth-status endpoint reports the caller authenticated, while
`ValidateSession` on the same token returns unauthenticated. -/
theorem stale_session_status_divergence :
    ((Login (NewAuthManager "alice" "syspeek_secret" "" "" false false)
        (fun s => s) "alice" "secret" 0 "tok0").1.2.2 = true) ∧
    (GetSession
        (Login (NewAuthManager "alice" "syspeek_secret" "" "" false false)
          (fun s => s) "alice" "secret" 0 "tok0").2 "tok0" =
      some { token := "tok0", username := "alice", readWrite := true
             createdAt := 0, expiresAt := 86400 }) ∧
    (86400 < 90000) ∧
    ((HandleAuthStatus
        (Login (NewAuthManager "alice" "syspeek_secret" "" "" false false)
          (fun s => s) "alice" "secret" 0 "tok0").2
        (some "tok0")).authenticated = true) ∧
    ((ValidateSession
        (Login (NewAuthManager "alice" "syspeek_secret" "" "" false false)
          (fun s => s) "alice" "secret" 0 "tok0").2 "tok0" 90000).1 = false) := by
  exact ⟨rfl, rfl, by omega, rfl, rfl⟩

/-- In every loop state, the session has exited exactly when the trace so
far contains a connection-level failure. -/
theorem sseLoop_exited (events : List SSEEvent) :
    ∀ sent, (sseLoop events sent).exited = events.any connFailure := by
  induction events with
  | nil => intro sent; simp [sseLoop]
  | cons e rest ih =>
    intro sent
    cases e with
    | ctxDone => simp [sseLoop, connFailure]
    | tick c sampleOk writeOk =>
      cases sampleOk <;> cases writeOk <;>
        simp [sseLoop, connFailure, ih]

/-- The deferred ticker stops run exactly when the handler returns. -/
theorem sseLoop_tickers (events : List SSEEvent) :
    ∀ sent, (sseLoop events sent).tickersStopped = (sseLoop events sent).exited := by
  induction events with
  | nil => intro sent; simp [sseLoop]
  | cons e rest ih =>
    intro sent
    cases e with
    | ctxDone => simp [sseLoop]
    | tick c sampleOk writeOk =>
      cases sampleOk <;> cases writeOk <;> simp [sseLoop, ih]

/-- C7 — A failed metric sample never terminates a streaming session: its
event is skipped and the loop continues on the rest of the trace.  The
session exits exactly on a connection-level failure (context cancellation
or a write error on an attempted frame, the initial burst included), and
on every exit all per-category tickers are stopped. -/
theorem sse_stream_resilience :
    (∀ (category : String) (writeOk : Bool) (rest : List SSEEvent)
        (sent : List String),
      sseLoop (SSEEvent.tick category false writeOk :: rest) sent =
        sseLoop rest sent) ∧
    (∀ (initialWriteOk : Bool) (events : List SSEEvent),
      (HandleSSE initialWriteOk events).exited =
        (!initialWriteOk || events.any connFailure)) ∧
    (∀ (initialWriteOk : Bool) (events : List SSEEvent),
      (HandleSSE initialWriteOk events).exited = true →
      (HandleSSE initialWriteOk events).tickersStopped = true) := by
  refine ⟨fun c w rest sent => by simp [sseLoop], fun init evs => ?_,
    fun init evs hex => ?_⟩
  · cases init <;> simp [HandleSSE, sseLoop_exited]
  · cases init <;> simp_all [HandleSSE, sseLoop_tickers]

/-- The resilience theorem at a concrete trace: a failed cpu sample is
skipped, and after a dropped write the session has exited with its
tickers stopped. -/
theorem sse_stream_resilience_witness :
    sseLoop
        [SSEEvent.tick "cpu" false true, SSEEvent.tick "memory" true false]
        [] =
      sseLoop [SSEEvent.tick "memory" true false] [] ∧
    (HandleSSE true
        [SSEEvent.tick "cpu" false true,
          SSEEvent.tick "memory" true false]).tickersStopped = true := by
  refine ⟨sse_stream_resilience.1 "cpu" true
    [SSEEvent.tick "memory" true false] [], ?_⟩
  exact sse_stream_resilience.2.2 true
    [SSEEvent.tick "cpu" false true, SSEEvent.tick "memory" true false]
    (by decide)

/-- C8 — Every parsed connection row whose inode is in the descriptor-scan
index carries exactly that index entry's pid and process name; a row whose
inode has no index entry is still included, with the zero pid and empty
name, never dropped as an error: the output has one socket per
well-formed data row. -/
theorem correlation_spec (fmt6 : List Nat → String) (lines : List String)
    (protocol : String) (procs : List ProcEntry) :
    (∀ s ∈ parseNetSockets fmt6 lines protocol (buildInodeMap procs),
      (∀ owner, mapGet (buildInodeMap procs) s.inode = some owner →
        s.pid = owner.pid ∧ s.processName = owner.name) ∧
      (mapGet (buildInodeMap procs) s.inode = none →
        s.pid = 0 ∧ s.processName = "")) ∧
    (parseNetSockets fmt6 lines protocol (buildInodeMap procs)).length =
      (((lines.drop 1).map goFields).filter
        (fun fs => 10 ≤ fs.length)).length := by
  constructor
  · intro s hs
    unfold parseNetSockets at hs
    rcases List.mem_map.mp hs with ⟨fields, _, hrow⟩
    subst hrow
    unfold rowToSocket
    cases hm : mapGet (buildInodeMap procs) ((fields[9]?).getD "") with
    | none => simp [hm]
    | some owner => simp [hm]
  · unfold parseNetSockets
    simp

/-- The correlation theorem at a synthetic process set and connection
table: the row with inode 9999 is owned by pid 42 "nginx", the row with
inode 7777 has no owner and is still present. -/
theorem correlation_spec_witness :
    (∀ s ∈ parseNetSockets (fun _ => "")
        ["header",
          "0: 0100007F:0050 00000000:0000 0A 0 0 0 0 0 9999 1",
          "1: 0100007F:1F90 00000000:0000 0A 0 0 0 0 0 7777 1"]
        "tcp"
        (buildInodeMap [⟨42, "nginx", ["socket:[9999]"]⟩]),
      (∀ owner, mapGet (buildInodeMap [⟨42, "nginx", ["socket:[9999]"]⟩])
          s.inode = some owner →
        s.pid = owner.pid ∧ s.processName = owner.name) ∧
      (mapGet (buildInodeMap [⟨42, "nginx", ["socket:[9999]"]⟩])
          s.inode = none →
        s.pid = 0 ∧ s.processName = "")) ∧
    (parseNetSockets (fun _ => "")
        ["header",
          "0: 0100007F:0050 00000000:0000 0A 0 0 0 0 0 9999 1",
          "1: 0100007F:1F90 00000000:0000 0A 0 0 0 0 0 7777 1"]
        "tcp"
        (buildInodeMap [⟨42, "nginx", ["socket:[9999]"]⟩])).length = 2 := by
  refine ⟨(correlation_spec (fun _ => "")
    ["header",
      "0: 0100007F:0050 00000000:0000 0A 0 0 0 0 0 9999 1",
      "1: 0100007F:1F90 00000000:0000 0A 0 0 0 0 0 7777 1"]
    "tcp" [⟨42, "nginx", ["socket:[9999]"]⟩]).1, ?_⟩
  rw [(correlation_spec (fun _ => "")
    ["header",
      "0: 0100007F:0050 00000000:0000 0A 0 0 0 0 0 9999 1",
      "1: 0100007F:1F90 00000000:0000 0A 0 0 0 0 0 7777 1"]
    "tcp" [⟨42, "nginx", ["socket:[9999]"]⟩]).2]
  decide

/-- `parseUint8` always yields one byte, whatever the input. -/
theorem parseUint8_lt (cs : List Char) : parseUint8 cs < 256 := by
  unfold parseUint8
  cases h : parseHexNat cs with
  | none => decide
  | some v =>
    by_cases hv : v < 256 <;> simp [hv]

/-- The code's reversed-pair group assembly equals the spec's
little-endian group reading rendered big-endian. -/
theorem ipv6GroupBytes_eq_le (g : List Char) :
    ipv6GroupBytes g = beBytes32 (leGroupValue g) := by
  unfold ipv6GroupBytes beBytes32 leGroupValue
  have h0 := parseUint8_lt ((g.drop (2 * 0)).take 2)
  have h1 := parseUint8_lt ((g.drop (2 * 1)).take 2)
  have h2 := parseUint8_lt ((g.drop (2 * 2)).take 2)
  have h3 := parseUint8_lt ((g.drop (2 * 3)).take 2)
  unfold hexPairAt at *
  simp only [List.cons.injEq, and_true]
  omega

/-- The full 16-byte assembly agrees with the spec-side group reading. -/
theorem ipv6Bytes_eq_groupsLE (cs : List Char) :
    ipv6Bytes cs = ipv6GroupsLE cs := by
  unfold ipv6Bytes ipv6GroupsLE
  simp [ipv6GroupBytes_eq_le]

/-- C9 — The compact-address decoder maps `"0100007F"` to `"127.0.0.1"`
(four bytes in reversed order); a 32-hex-digit input is decoded by reading
each 8-hex-char group as a 32-bit little-endian value (the assembled bytes
handed to the address formatter are exactly the groups' big-endian
renderings); the state decoder maps `"0A"` to `"LISTEN"` and passes any
code outside its fixed table through verbatim. -/
theorem decoder_spec :
    (∀ fmt6 : List Nat → String, parseHexIP fmt6 "0100007F" = "127.0.0.1") ∧
    (∀ (fmt6 : List Nat → String) (hex : String), hex.length = 32 →
      parseHexIP fmt6 hex = fmt6 (ipv6GroupsLE hex.toList)) ∧
    parseState "0A" = "LISTEN" ∧
    (∀ code : String, mapGet tcpStateTable code = none →
      parseState code = code) := by
  refine ⟨fun fmt6 => ?_, fun fmt6 hex hlen => ?_, by decide,
    fun code hc => ?_⟩
  · unfold parseHexIP
    split_ifs with h8 h32
    · decide
    · exact absurd (by decide) h8
    · exact absurd (by decide) h8
  · unfold parseHexIP
    rw [hlen]
    norm_num
    exact congrArg fmt6 (ipv6Bytes_eq_groupsLE hex.toList)
  · unfold parseState
    rw [hc]

/-- The decoder theorem at concrete inputs: the loopback IPv4 encoding,
one concrete IPv6 encoding handed to a formatter that renders the raw
bytes, and an unknown state code. -/
theorem decoder_spec_witness :
    parseHexIP (fun _ => "X") "0100007F" = "127.0.0.1" ∧
    parseHexIP (fun bs => String.join (bs.map toString))
        "00000000000000000000000001000000" =
      (fun bs : List Nat => String.join (bs.map toString))
        (ipv6GroupsLE "00000000000000000000000001000000".toList) ∧
    parseState "FF" = "FF" := by
  refine ⟨decoder_spec.1 (fun _ => "X"), ?_, ?_⟩
  · exact decoder_spec.2.1 (fun bs => String.join (bs.map toString))
      "00000000000000000000000001000000" (by decide)
  · exact decoder_spec.2.2.2 "FF" (by decide)

/-- C1, as stated, is refuted here: when the network interface's
cumulative rx/tx counters drop from 10 to 5 between two samples, the
computed speed is the underflowed uint64 value `2^64 - 5`, not zero — no
clamping happens; the disk and process-CPU deltas behave identically. -/
theorem rate_clamp_counterexample :
    (netSpeeds (some ⟨10, 10⟩) 5 5).1 = 2 ^ 64 - 5 ∧
    (netSpeeds (some ⟨10, 10⟩) 5 5).1 ≠ 0 ∧
    (diskSpeeds (some ⟨10, 10⟩) 5 5).1 = 2 ^ 64 - 5 ∧
    (diskSpeeds (some ⟨10, 10⟩) 5 5).1 ≠ 0 ∧
    cpuTicksDelta (some 10) 5 = 2 ^ 64 - 5 ∧
    cpuTicksDelta (some 10) 5 ≠ 0 := by
  decide

/-- The wraparound subtraction evaluated below its second argument. -/
theorem wsub64_of_lt (cur prev : Nat) (hp : prev < 2 ^ 64) (hc : cur < prev) :
    wsub64 cur prev = 2 ^ 64 - (prev - cur) := by
  unfold wsub64
  have h64 : (2 : Nat) ^ 64 = 18446744073709551616 := by norm_num
  rw [h64] at *
  omega

/-- C1 (amended) — When the cumulative counter observed at the later of
two successive samples is strictly below the earlier value, the computed
rate is the unsigned 64-bit wraparound difference `2^64 - (previous -
current)`: an underflowed huge nonzero value, not a clamp to zero, for
network-interface, disk-device, and process-CPU deltas alike. -/
theorem rate_wraparound_on_decrease (prev cur : Nat) (hp : prev < 2 ^ 64)
    (hc : cur < prev) :
    (netSpeeds (some ⟨prev, prev⟩) cur cur).1 = 2 ^ 64 - (prev - cur) ∧
    (netSpeeds (some ⟨prev, prev⟩) cur cur).2 = 2 ^ 64 - (prev - cur) ∧
    (diskSpeeds (some ⟨prev, prev⟩) cur cur).1 = 2 ^ 64 - (prev - cur) ∧
    (diskSpeeds (some ⟨prev, prev⟩) cur cur).2 = 2 ^ 64 - (prev - cur) ∧
    cpuTicksDelta (some prev) cur = 2 ^ 64 - (prev - cur) ∧
    2 ^ 64 - (prev - cur) ≠ 0 := by
  have h := wsub64_of_lt cur prev hp hc
  have h64 : (2 : Nat) ^ 64 = 18446744073709551616 := by norm_num
  refine ⟨h, h, h, h, h, ?_⟩
  rw [h64] at *
  omega

/-- The wraparound theorem at the counter drop 10 → 5: the rate comes out
as `2^64 - 5`, not zero. -/
theorem rate_wraparound_on_decrease_witness :
    (netSpeeds (some ⟨10, 10⟩) 5 5).1 = 2 ^ 64 - 5 ∧
    2 ^ 64 - (10 - 5) ≠ 0 := by
  refine ⟨(rate_wraparound_on_decrease 10 5 (by norm_num) (by norm_num)).1, ?_⟩
  exact (rate_wraparound_on_decrease 10 5 (by norm_num) (by norm_num)).2.2.2.2.2

/-- C3 — A kill request whose target pid equals the server's own pid never
reaches `syscall.Kill` — no signal is sent whatever the caller's role —
and whenever the request passes the read-write gate (admin mode included)
as a POST, the outcome is the forbidden self-target refusal. -/
theorem kill_self_target_refused (am : AuthManager) (req : Request)
    (now : Nat) (servicePID : Int) (killErr : Option String)
    (hpid : atoi (extractPID req.path) = some servicePID) :
    (killEndpoint am req now servicePID killErr).2.1 = [] ∧
    (req.method = "POST" →
      (MiddlewareReadWrite am req now).1.isAllowed = true →
      (killEndpoint am req now servicePID killErr).1 =
        KillOutcome.forbiddenSelf) := by
  by_cases hA : am.isAdmin = true
  · by_cases hm : req.method = "POST" <;>
      simp [killEndpoint, MiddlewareReadWrite, HandleProcessKill, hA, hm,
        hpid, MwResult.isAllowed]
  · by_cases hv : (ValidateSession am (tokenOf req) now).1 = true
    · by_cases hrw :
          IsReadWrite (ValidateSession am (tokenOf req) now).2 (tokenOf req) = true
      · by_cases hm : req.method = "POST" <;>
          simp [killEndpoint, MiddlewareReadWrite, HandleProcessKill, hA, hv,
            hrw, hm, hpid, MwResult.isAllowed]
      · simp [killEndpoint, MiddlewareReadWrite, hA, hv, hrw,
          MwResult.isAllowed]
    · simp [killEndpoint, MiddlewareReadWrite, hA, hv, MwResult.isAllowed]

/-- The self-target guard at a concrete admin-mode POST on the server's
own pid 7: nothing is killed and the outcome is the forbidden refusal. -/
theorem kill_self_target_refused_witness :
    (killEndpoint (NewAuthManager "" "" "" "" false true)
        { method := "POST", cookieSession := none, authHeader := "",
          path := "/api/process/7/kill", bodySignal := none } 0 7 none).2.1 =
      [] ∧
    (killEndpoint (NewAuthManager "" "" "" "" false true)
        { method := "POST", cookieSession := none, authHeader := "",
          path := "/api/process/7/kill", bodySignal := none } 0 7 none).1 =
      KillOutcome.forbiddenSelf := by
  have h := kill_self_target_refused (NewAuthManager "" "" "" "" false true)
    { method := "POST", cookieSession := none, authHeader := "",
      path := "/api/process/7/kill", bodySignal := none } 0 7 none (by decide)
  exact ⟨h.1, h.2 rfl (by decide)⟩

end Syspeek
